import Mathlib

/-
Verification of the forge-ui streaming core: the SSE transport
(src/composables/useSSE.ts) and the conversation engine
(src/composables/useConversation.ts), shallowly embedded as pure Lean
functions.  Opaque JSON payloads (tool arguments, tool results) are carried
as strings; they are never inspected by the code under verification.
Wall-clock timestamps and random message ids are produced by the host
environment in the source; each operation here takes the current timestamp
as an explicit `now : String` argument and builds ids from it the way the
source builds them from `Date.now()`.
-/

namespace ForgeUI

/-- Token usage attached to a complete event, from types/conversation.ts
(`TokenUsage`). -/
structure TokenUsage where
  prompt_tokens : Nat
  completion_tokens : Nat
deriving Repr, DecidableEq

/-- Message roles, from types/conversation.ts (`MessageRole`). -/
inductive MessageRole
  | user
  | assistant
  | system
  | tool_call
  | tool_result
deriving Repr, DecidableEq, Inhabited

/-- Message status, from types/conversation.ts (`MessageStatus`). -/
inductive MessageStatus
  | complete
  | cancelled
  | error
  | streaming
deriving Repr, DecidableEq, Inhabited

/-- Message record, from types/conversation.ts (`Message`).  Optional
TypeScript fields become `Option`; `tool_arguments` and `tool_result` are
opaque JSON payloads carried as strings. -/
structure Message where
  id : String
  role : MessageRole
  content : String
  timestamp : String
  model : Option String := none
  usage : Option TokenUsage := none
  thinking : Option String := none
  tool_name : Option String := none
  tool_arguments : Option String := none
  tool_call_id : Option String := none
  tool_result : Option String := none
  is_error : Option Bool := none
  latency_ms : Option Nat := none
  enable_tools : Option Bool := none
  use_toon_format : Option Bool := none
  use_tool_rag_mode : Option Bool := none
  status : MessageStatus
deriving Repr, DecidableEq, Inhabited

/-- Tool description captured in conversation metadata, from
types/conversation.ts (`Tool`); `inputSchema` is an opaque payload. -/
structure Tool where
  name : String
  description : Option String := none
  inputSchema : Option String := none
deriving Repr, DecidableEq

/-- Conversation metadata, from types/conversation.ts
(`ConversationMetadata`). -/
structure ConversationMetadata where
  id : String
  title : String
  created_at : String
  updated_at : String
  model : String
  system_prompt : String
  tools : List Tool
  total_tokens : Nat
  message_count : Nat
  use_toon_format : Option Bool := none
deriving Repr, DecidableEq

/-- Conversation record, from types/conversation.ts (`Conversation`). -/
structure Conversation where
  version : String
  metadata : ConversationMetadata
  messages : List Message
deriving Repr, DecidableEq

/-- In-flight tool call state, from types/conversation.ts
(`ToolCallState`).  The status union is carried as a string exactly as in
the source. -/
structure ToolCallState where
  id : String
  tool_name : String
  arguments : String
  status : String
  result : Option String := none
  is_error : Option Bool := none
  latency_ms : Option Nat := none
deriving Repr, DecidableEq

/-- Payload of a `token` SSE event, from the SSE event types. -/
structure TokenEvent where
  token : String
  cumulative : String
deriving Repr, DecidableEq

/-- Payload of a `thinking` SSE event. -/
structure ThinkingEvent where
  content : String
  cumulative : String
deriving Repr, DecidableEq

/-- Payload of a `tool_call` SSE event; `arguments` is an opaque JSON
payload carried as a string. -/
structure ToolCallEvent where
  id : String
  tool_name : String
  arguments : String
  status : String
deriving Repr, DecidableEq

/-- Payload of a `tool_result` SSE event. -/
structure ToolResultEvent where
  tool_call_id : String
  result : String
  is_error : Bool
  latency_ms : Nat
deriving Repr, DecidableEq

/-- Payload of a `complete` SSE event. -/
structure CompleteEvent where
  response : String
  usage : Option TokenUsage := none
deriving Repr, DecidableEq

/-- Payload of an `error` SSE event. -/
structure ErrorEvent where
  code : String
  message : String
  retryable : Bool
deriving Repr, DecidableEq

/-- Insertion-ordered string-keyed map, modelling a JavaScript `Map`:
`set` on an existing key updates the value in place keeping the original
insertion position, `set` on a fresh key appends. -/
def jsMapSet (m : List (String × ToolCallState)) (k : String)
    (v : ToolCallState) : List (String × ToolCallState) :=
  if m.any (fun p => p.1 = k) then
    m.map (fun p => if p.1 = k then (k, v) else p)
  else
    m ++ [(k, v)]

/-- Lookup in the insertion-ordered map, modelling `Map.get`. -/
def jsMapGet (m : List (String × ToolCallState)) (k : String) :
    Option ToolCallState :=
  (m.find? (fun p => p.1 = k)).map (fun p => p.2)

/-- Mutable module-level state of useConversation.ts that the streaming
core reads and writes.  `toolCalls` is the pending tool-call map (a JS
`Map`, insertion-ordered).  `byokHeaders` stands for the result of
`useKeys().getHeaders()` (external key-store state, opaque pass-through
configuration).  `isAdvancedView` and the three `adv*` fields model
`isAdvancedView` and the relevant `advancedViewSettings` toggles;
`settingsModel` models `useSettings().selectedModel`. -/
structure EngineState where
  conversation : Option Conversation
  isStreaming : Bool
  currentResponse : String
  currentThinking : String
  toolCalls : List (String × ToolCallState)
  messageDraft : String
  byokHeaders : List (String × String)
  isAdvancedView : Bool
  advEnableTools : Bool
  advUseToonFormat : Bool
  advUseToolRag : Bool
  settingsModel : Option String
  keysProvider : String
deriving Repr, DecidableEq

/-- Default API base URL from useConversation.ts (`API_URL`). -/
def API_URL : String := "http://localhost:8001"

/-- Body of the outbound streaming request built by sendMessage
(`requestBody` in useConversation.ts); history entries are (role, content)
pairs. -/
structure RequestBody where
  user_message : String
  messages : List (String × String)
  system_prompt : Option String
  model : Option String
  provider : String
  enable_tools : Bool
  use_toon_format : Bool
  use_tool_rag_mode : Bool
deriving Repr, DecidableEq

/-- An HTTP request as issued by `fetch` inside connectPost. -/
structure FetchRequest where
  url : String
  method : String
  headers : List (String × String)
  body : RequestBody
deriving Repr, DecidableEq

/-- Request construction performed by `connectPost(url, body, handlers)`
in useSSE.ts: method POST, exactly the two hard-coded headers, JSON body.
The function's parameter list is `(url, body, handlers)`; it has no
parameter for caller-supplied headers, so any extra argument at a call
site never reaches this `fetch` call. -/
def connectPostRequest (url : String) (body : RequestBody) : FetchRequest :=
  { url := url
    method := "POST"
    headers := [("Content-Type", "application/json"),
                ("Accept", "text/event-stream")]
    body := body }

/-- JavaScript `a || b` on an optional string operand: the empty string is
falsy.  Used for the `model || settings || metadata.model || null` chain
in sendMessage. -/
def jsOrStr (a : Option String) (b : Option String) : Option String :=
  match a with
  | some s => if s = "" then b else some s
  | none => b

/-- Role names as sent in the replay history (`m.role` serialized). -/
def roleName : MessageRole → String
  | .user => "user"
  | .assistant => "assistant"
  | .system => "system"
  | .tool_call => "tool_call"
  | .tool_result => "tool_result"

/-- Per-turn tool-calling setting: in advanced mode the settings toggle,
in basic mode the default `true`. -/
def perTurnEnableTools (s : EngineState) : Bool :=
  if s.isAdvancedView then s.advEnableTools else true

/-- Per-turn TOON-format setting: in advanced mode the settings toggle,
in basic mode the default `false`. -/
def perTurnUseToon (s : EngineState) : Bool :=
  if s.isAdvancedView then s.advUseToonFormat else false

/-- Per-turn tool-RAG setting: in advanced mode the settings toggle, in
basic mode the default `false`. -/
def perTurnUseRag (s : EngineState) : Bool :=
  if s.isAdvancedView then s.advUseToolRag else false

/-- The user message appended optimistically by sendMessage. -/
def mkUserMsg (s : EngineState) (content : String) (now : String) : Message :=
  { id := "msg_" ++ now
    role := .user
    content := content
    timestamp := now
    status := .complete
    enable_tools := some (perTurnEnableTools s)
    use_toon_format := some (perTurnUseToon s)
    use_tool_rag_mode := some (perTurnUseRag s) }

/-- Metadata update performed by sendMessage: message_count is set to the
new list length, and the TOON flag is latched to true the first time a
TOON turn is sent. -/
def sendMeta (s : EngineState) (meta : ConversationMetadata) (count : Nat) :
    ConversationMetadata :=
  let meta1 := { meta with message_count := count }
  if perTurnUseToon s ∧ ¬ (meta1.use_toon_format.getD false) then
    { meta1 with use_toon_format := some true }
  else meta1

/-- Replay history sent to the backend: user/assistant turns only, minus
the just-appended user message (`filter` then `slice(0, -1)`). -/
def historyOf (msgs : List Message) : List (String × String) :=
  ((msgs.filter (fun m => m.role = .user ∨ m.role = .assistant)).dropLast).map
    (fun m => (roleName m.role, m.content))

/-- Outbound request body built by sendMessage (`requestBody`). -/
def sendBody (s : EngineState) (conv : Conversation) (content : String)
    (model : Option String) (now : String) : RequestBody :=
  { user_message := content
    messages := historyOf (conv.messages ++ [mkUserMsg s content now])
    system_prompt :=
      if conv.metadata.system_prompt = "" then none
      else some conv.metadata.system_prompt
    model :=
      jsOrStr model (jsOrStr s.settingsModel
        (if conv.metadata.model = "" then none else some conv.metadata.model))
    provider := s.keysProvider
    enable_tools := perTurnEnableTools s
    use_toon_format := perTurnUseToon s
    use_tool_rag_mode := perTurnUseRag s }

/-- sendMessage from useConversation.ts, up to and including the
connectPost invocation.  Returns the mutated state and the outbound fetch
request when a connection is opened (`none` when the guard makes the call
a no-op).  The source's per-call `new Date()` values are supplied as
`now`.  The call site passes a fourth options argument
`\x7b headers: byokHeaders \x7d` to connectPost, but connectPost's
signature has only (url, body, handlers), so the computed BYOK headers
(`s.byokHeaders`, the result of `useKeys().getHeaders()`) do not flow
into the request. -/
def sendMessage (s : EngineState) (content : String) (model : Option String)
    (now : String) : EngineState × Option FetchRequest :=
  match s.conversation with
  | none => (s, none)
  | some conv =>
    if s.isStreaming then (s, none)
    else
      let msgs := conv.messages ++ [mkUserMsg s content now]
      let s' :=
        { s with
          conversation := some
            { conv with
              metadata := sendMeta s conv.metadata msgs.length
              messages := msgs }
          isStreaming := true
          currentResponse := ""
          currentThinking := ""
          toolCalls := [] }
      (s', some (connectPostRequest (API_URL ++ "/chat/stream")
        (sendBody s conv content model now)))

/-- The onToken stream handler from sendMessage. -/
def onToken (e : TokenEvent) (s : EngineState) : EngineState :=
  { s with currentResponse := e.cumulative }

/-- The onThinking stream handler from sendMessage. -/
def onThinking (e : ThinkingEvent) (s : EngineState) : EngineState :=
  { s with currentThinking := e.cumulative }

/-- The onToolCall stream handler from sendMessage: `Map.set` of a fresh
state record keyed by the event id (re-setting an id keeps its original
insertion position and discards any previously attached result). -/
def onToolCall (e : ToolCallEvent) (s : EngineState) : EngineState :=
  { s with
    toolCalls := jsMapSet s.toolCalls e.id
      { id := e.id
        tool_name := e.tool_name
        arguments := e.arguments
        status := e.status } }

/-- The onToolResult stream handler from sendMessage: attach the result to
the matching pending call; a result with no matching pending call is
dropped. -/
def onToolResult (e : ToolResultEvent) (s : EngineState) : EngineState :=
  match jsMapGet s.toolCalls e.tool_call_id with
  | none => s
  | some tc =>
    { s with
      toolCalls := jsMapSet s.toolCalls e.tool_call_id
        { tc with
          status := "complete"
          result := some e.result
          is_error := some e.is_error
          latency_ms := some e.latency_ms } }

/-- Tool-call message materialized by the onComplete handler for one
pending map entry. -/
def mkToolCallMsg (tc : ToolCallState) (now : String) : Message :=
  { id := "msg_tc_" ++ tc.id
    role := .tool_call
    content := ""
    timestamp := now
    status := .complete
    tool_name := some tc.tool_name
    tool_arguments := some tc.arguments
    tool_call_id := some tc.id }

/-- Tool-result message materialized by the onComplete handler for one
pending map entry; `tool_result`, `is_error` and `latency_ms` are absent
when no tool_result event was received for the call. -/
def mkToolResultMsg (tc : ToolCallState) (now : String) : Message :=
  { id := "msg_tr_" ++ tc.id
    role := .tool_result
    content := ""
    timestamp := now
    status := .complete
    tool_call_id := some tc.id
    tool_result := tc.result
    is_error := tc.is_error
    latency_ms := tc.latency_ms }

/-- Tool-call/tool-result message pairs materialized on complete, one per
pending map entry in insertion (first-seen) order. -/
def toolPairMsgs (m : List (String × ToolCallState)) (now : String) :
    List Message :=
  m.flatMap (fun p => [mkToolCallMsg p.2 now, mkToolResultMsg p.2 now])

/-- Token increment applied on complete: `(usage.prompt_tokens || 0) +
(usage.completion_tokens || 0)` when the event carries usage, nothing
otherwise. -/
def usageTokens : Option TokenUsage → Nat
  | some u => u.prompt_tokens + u.completion_tokens
  | none => 0

/-- Final assistant message built by the onComplete handler;
`thinking: currentThinking.value || undefined` drops an empty trace. -/
def mkAssistantMsg (e : CompleteEvent) (s : EngineState)
    (model : Option String) (now : String) : Message :=
  { id := "msg_" ++ now
    role := .assistant
    content := e.response
    timestamp := now
    status := .complete
    model := model
    usage := e.usage
    thinking := if s.currentThinking = "" then none else some s.currentThinking }

/-- The onComplete stream handler from sendMessage: materialize one
tool_call/tool_result pair per pending map entry, append the assistant
message, add the usage tokens to total_tokens, refresh message_count and
updated_at, then clear the stream session (including the input draft). -/
def onComplete (e : CompleteEvent) (now : String) (s : EngineState) :
    EngineState :=
  match s.conversation with
  | none =>
    { s with
      isStreaming := false
      currentResponse := ""
      currentThinking := ""
      toolCalls := []
      messageDraft := "" }
  | some conv =>
    let msgs := conv.messages ++ toolPairMsgs s.toolCalls now ++
      [mkAssistantMsg e s (some conv.metadata.model) now]
    let meta :=
      { conv.metadata with
        total_tokens := conv.metadata.total_tokens + usageTokens e.usage
        message_count := msgs.length
        updated_at := now }
    { s with
      conversation := some { conv with metadata := meta, messages := msgs }
      isStreaming := false
      currentResponse := ""
      currentThinking := ""
      toolCalls := []
      messageDraft := "" }

/-- The onError stream handler from sendMessage: append one assistant
message with status error carrying the event's message text, then reset
the streaming accumulators.  The source updates neither message_count nor
updated_at here, and does not clear the draft. -/
def onError (e : ErrorEvent) (now : String) (s : EngineState) : EngineState :=
  let s' : EngineState :=
    match s.conversation with
    | none => s
    | some conv =>
      { s with
        conversation := some
          { conv with
            messages := conv.messages ++
              [{ id := "msg_" ++ now
                 role := .assistant
                 content := e.message
                 timestamp := now
                 status := .error }] }
  }
  { s' with
    isStreaming := false
    currentResponse := ""
    currentThinking := ""
    toolCalls := [] }

/-- cancelGeneration from useConversation.ts. -/
def cancelGeneration (s : EngineState) : EngineState :=
  if s.isStreaming then
    { s with
      isStreaming := false
      currentResponse := ""
      currentThinking := ""
      toolCalls := [] }
  else s

/-- deleteMessagesFrom from useConversation.ts: `messages.slice(0, index)`
(a JS slice keeps at most `index` leading elements), recompute
message_count, refresh updated_at. -/
def deleteMessagesFrom (idx : Nat) (now : String) (s : EngineState) :
    EngineState :=
  match s.conversation with
  | none => s
  | some conv =>
    let msgs := conv.messages.take idx
    { s with
      conversation := some
        { conv with
          metadata :=
            { conv.metadata with
              message_count := msgs.length
              updated_at := now }
          messages := msgs } }

/-- Index of the nearest user message at or before `i` (the decrementing
while loop in retryFromMessage), `none` when there is none. -/
def findUserIdx (msgs : List Message) : Nat → Option Nat
  | 0 => if (msgs.getD 0 default).role = .user then some 0 else none
  | i + 1 =>
    if (msgs.getD (i + 1) default).role = .user then some (i + 1)
    else findUserIdx msgs i

/-- retryFromMessage from useConversation.ts: find the nearest user
message at or before the index, truncate the conversation to just before
it, then resend that user message's content via sendMessage.  Indices past
the end of the list would fault in the source before any mutation; they
are modelled as the identity. -/
def retryFromMessage (idx : Nat) (now : String) (s : EngineState) :
    EngineState × Option FetchRequest :=
  match s.conversation with
  | none => (s, none)
  | some conv =>
    if s.isStreaming then (s, none)
    else if conv.messages.length ≤ idx then (s, none)
    else
      match findUserIdx conv.messages idx with
      | none => (s, none)
      | some ui =>
        let userMessage := conv.messages.getD ui default
        let msgs := conv.messages.take ui
        let s' :=
          { s with
            conversation := some
              { conv with
                metadata :=
                  { conv.metadata with
                    message_count := msgs.length
                    updated_at := now }
                messages := msgs } }
        sendMessage s' userMessage.content none now

/-- Non-terminal stream events folded into the session while streaming. -/
inductive StreamEvent
  | token (e : TokenEvent)
  | thinking (e : ThinkingEvent)
  | toolCall (e : ToolCallEvent)
  | toolResult (e : ToolResultEvent)
  | ping
deriving Repr, DecidableEq

/-- Dispatch of one non-terminal stream event to its handler (onPing does
nothing). -/
def applyStreamEvent (s : EngineState) (ev : StreamEvent) : EngineState :=
  match ev with
  | .token e => onToken e s
  | .thinking e => onThinking e s
  | .toolCall e => onToolCall e s
  | .toolResult e => onToolResult e s
  | .ping => s

/-- One full generation that ends with a complete event: sendMessage, then
the non-terminal stream events in wire order, then the onComplete
handler. -/
def runGenerationComplete (s : EngineState) (content : String)
    (sendTime : String) (evs : List StreamEvent) (e : CompleteEvent)
    (doneTime : String) : EngineState :=
  onComplete e doneTime (evs.foldl applyStreamEvent (sendMessage s content none sendTime).1)

/-- One full generation that ends with an error event: sendMessage, then
the non-terminal stream events in wire order, then the onError handler. -/
def runGenerationError (s : EngineState) (content : String)
    (sendTime : String) (evs : List StreamEvent) (e : ErrorEvent)
    (errTime : String) : EngineState :=
  onError e errTime (evs.foldl applyStreamEvent (sendMessage s content none sendTime).1)


/-! Demo values used by witnesses and counterexamples. -/

/-- Metadata of a freshly created conversation (createConversation with
zero counters). -/
def demoMeta0 : ConversationMetadata :=
  { id := "conv-1"
    title := ""
    created_at := "t0"
    updated_at := "t0"
    model := "anthropic/claude-sonnet-4"
    system_prompt := "sp"
    tools := []
    total_tokens := 0
    message_count := 0 }

/-- A freshly created, empty conversation. -/
def demoConv0 : Conversation :=
  { version := "1.1.0", metadata := demoMeta0, messages := [] }

/-- Idle engine state holding the empty conversation, with BYOK keys
configured. -/
def demoState0 : EngineState :=
  { conversation := some demoConv0
    isStreaming := false
    currentResponse := ""
    currentThinking := ""
    toolCalls := []
    messageDraft := "draft"
    byokHeaders := [("X-LLM-Key", "k"), ("X-LLM-Provider", "openrouter")]
    isAdvancedView := false
    advEnableTools := true
    advUseToonFormat := false
    advUseToolRag := false
    settingsModel := none
    keysProvider := "openrouter" }

/-- A lone user message. -/
def demoUserMsg : Message :=
  { id := "msg_t1"
    role := .user
    content := "hello"
    timestamp := "t1"
    status := .complete }

/-- A conversation holding exactly one (user) message. -/
def demoConv1 : Conversation :=
  { version := "1.1.0"
    metadata := { demoMeta0 with message_count := 1 }
    messages := [demoUserMsg] }

/-- Idle engine state holding the one-message conversation. -/
def demoState1 : EngineState :=
  { demoState0 with conversation := some demoConv1 }

/-- Engine state with a generation in progress. -/
def demoStreaming : EngineState :=
  { demoState1 with isStreaming := true }

/-- A pending tool call that never received a tool_result event. -/
def demoPendingCall : ToolCallState :=
  { id := "t1", tool_name := "get_weather", arguments := "args", status := "executing" }

/-- Streaming state whose pending map holds one call without a result. -/
def demoStreamingWithCall : EngineState :=
  { demoStreaming with toolCalls := [("t1", demoPendingCall)] }

/-! Preservation lemmas for the non-terminal stream handlers. -/

/-- Non-terminal stream handlers never touch the conversation. -/
theorem applyStreamEvent_conversation (s : EngineState) (ev : StreamEvent) :
    (applyStreamEvent s ev).conversation = s.conversation := by
  cases ev with
  | token e => rfl
  | thinking e => rfl
  | toolCall e => rfl
  | toolResult e =>
    simp only [applyStreamEvent, onToolResult]
    cases jsMapGet s.toolCalls e.tool_call_id <;> rfl
  | ping => rfl

/-- Folding any sequence of non-terminal stream events leaves the
conversation untouched. -/
theorem foldl_stream_conversation (evs : List StreamEvent) (s : EngineState) :
    (evs.foldl applyStreamEvent s).conversation = s.conversation := by
  induction evs generalizing s with
  | nil => rfl
  | cons ev rest ih =>
    simpa [applyStreamEvent_conversation] using ih (applyStreamEvent s ev)

/-- Shape of a successful sendMessage call: optimistic user append,
metadata refresh, session reset, and the outbound request. -/
theorem sendMessage_run (s : EngineState) (conv : Conversation)
    (content : String) (model : Option String) (now : String)
    (hc : s.conversation = some conv) (hs : s.isStreaming = false) :
    sendMessage s content model now =
      ({ s with
          conversation := some
            { conv with
              metadata := sendMeta s conv.metadata (conv.messages.length + 1)
              messages := conv.messages ++ [mkUserMsg s content now] }
          isStreaming := true
          currentResponse := ""
          currentThinking := ""
          toolCalls := [] },
       some (connectPostRequest (API_URL ++ "/chat/stream")
         (sendBody s conv content model now))) := by
  unfold sendMessage
  rw [hc]
  simp [hs]

/-- sendMeta does not change the model field. -/
theorem sendMeta_model (s : EngineState) (meta : ConversationMetadata)
    (n : Nat) : (sendMeta s meta n).model = meta.model := by
  unfold sendMeta
  dsimp only
  split <;> rfl

/-- sendMeta does not change the total_tokens field. -/
theorem sendMeta_total_tokens (s : EngineState) (meta : ConversationMetadata)
    (n : Nat) : (sendMeta s meta n).total_tokens = meta.total_tokens := by
  unfold sendMeta
  dsimp only
  split <;> rfl


/-! Claim theorems for the conversation engine. -/

/-- C5: while a generation is in progress (isStreaming is true), a further
sendMessage call is a no-op: the state is returned unchanged (no user
message appended, no conversation mutation) and no transport connection is
opened. -/
theorem sendMessage_noop_while_streaming (s : EngineState) (content : String)
    (model : Option String) (now : String) (h : s.isStreaming = true) :
    sendMessage s content model now = (s, none) := by
  unfold sendMessage
  cases s.conversation with
  | none => rfl
  | some conv => simp [h]

/-- Witness for C5: a second sendMessage issued on a concrete streaming
state returns the state unchanged and opens no connection. -/
theorem sendMessage_noop_while_streaming_witness :
    sendMessage demoStreaming "again" none "t2" = (demoStreaming, none) :=
  sendMessage_noop_while_streaming demoStreaming "again" none "t2" rfl

/-- C9 (amended): deleteMessagesFrom truncates the message list to length
`min index length`, sets message_count to the new length, refreshes
updated_at, and leaves every other field of the engine state and the
conversation (total_tokens included) unchanged. -/
theorem deleteMessagesFrom_truncates (s : EngineState) (conv : Conversation)
    (idx : Nat) (now : String) (hc : s.conversation = some conv) :
    deleteMessagesFrom idx now s =
      { s with
        conversation := some
          { conv with
            metadata :=
              { conv.metadata with
                message_count := min idx conv.messages.length
                updated_at := now }
            messages := conv.messages.take idx } } := by
  unfold deleteMessagesFrom
  rw [hc]
  simp [List.length_take]

/-- Witness for C9's amended theorem at a concrete conversation. -/
theorem deleteMessagesFrom_truncates_witness :
    deleteMessagesFrom 1 "t9" demoState1 =
      { demoState1 with
        conversation := some
          { demoConv1 with
            metadata :=
              { demoConv1.metadata with
                message_count := min 1 demoConv1.messages.length
                updated_at := "t9" }
            messages := demoConv1.messages.take 1 } } :=
  deleteMessagesFrom_truncates demoState1 demoConv1 1 "t9" rfl

/-- Counterexample for C9 as stated: on a one-message conversation,
deleteMessagesFrom 5 leaves the list at length 1, not at length 5. -/
theorem deleteMessagesFrom_beyond_length :
    ((deleteMessagesFrom 5 "t9" demoState1).conversation.map
      (fun c => c.messages.length)) = some 1 ∧ (1 : Nat) ≠ 5 := by
  constructor
  · rfl
  · decide


/-- C6: a generation that ends with an error event appends, after the
triggering user message, exactly one assistant message with status error
whose content is the event's message text; no tool_call or tool_result
message is materialized no matter which stream events preceded the error,
and the stream session accumulators are cleared. -/
theorem error_generation_messages (s : EngineState) (conv : Conversation)
    (content sendTime errTime : String) (evs : List StreamEvent)
    (e : ErrorEvent) (hc : s.conversation = some conv)
    (hs : s.isStreaming = false) :
    ∃ c : Conversation,
      (runGenerationError s content sendTime evs e errTime).conversation = some c ∧
      c.messages = conv.messages ++ [mkUserMsg s content sendTime] ++
        [{ id := "msg_" ++ errTime
           role := .assistant
           content := e.message
           timestamp := errTime
           status := .error }] ∧
      (runGenerationError s content sendTime evs e errTime).isStreaming = false ∧
      (runGenerationError s content sendTime evs e errTime).currentResponse = "" ∧
      (runGenerationError s content sendTime evs e errTime).currentThinking = "" ∧
      (runGenerationError s content sendTime evs e errTime).toolCalls = [] := by
  unfold runGenerationError
  rw [sendMessage_run s conv content none sendTime hc hs]
  set s1 : EngineState :=
    { s with
      conversation := some
        { conv with
          metadata := sendMeta s conv.metadata (conv.messages.length + 1)
          messages := conv.messages ++ [mkUserMsg s content sendTime] }
      isStreaming := true
      currentResponse := ""
      currentThinking := ""
      toolCalls := [] } with hs1
  have hconv : (evs.foldl applyStreamEvent s1).conversation = s1.conversation :=
    foldl_stream_conversation evs s1
  unfold onError
  rw [hconv]
  simp [hs1]

/-- Witness for C6: a concrete generation receiving a tool_call event and
then an error event ends with just the user message and one error-status
assistant message. -/
theorem error_generation_messages_witness :
    ∃ c : Conversation,
      (runGenerationError demoState0 "hello" "t1"
        [.toolCall { id := "t1", tool_name := "w", arguments := "a", status := "pending" }]
        { code := "RATE_LIMIT", message := "slow down", retryable := true }
        "t2").conversation = some c ∧
      c.messages = demoConv0.messages ++ [mkUserMsg demoState0 "hello" "t1"] ++
        [{ id := "msg_" ++ "t2"
           role := .assistant
           content := "slow down"
           timestamp := "t2"
           status := .error }] ∧
      (runGenerationError demoState0 "hello" "t1"
        [.toolCall { id := "t1", tool_name := "w", arguments := "a", status := "pending" }]
        { code := "RATE_LIMIT", message := "slow down", retryable := true }
        "t2").isStreaming = false ∧
      (runGenerationError demoState0 "hello" "t1"
        [.toolCall { id := "t1", tool_name := "w", arguments := "a", status := "pending" }]
        { code := "RATE_LIMIT", message := "slow down", retryable := true }
        "t2").currentResponse = "" ∧
      (runGenerationError demoState0 "hello" "t1"
        [.toolCall { id := "t1", tool_name := "w", arguments := "a", status := "pending" }]
        { code := "RATE_LIMIT", message := "slow down", retryable := true }
        "t2").currentThinking = "" ∧
      (runGenerationError demoState0 "hello" "t1"
        [.toolCall { id := "t1", tool_name := "w", arguments := "a", status := "pending" }]
        { code := "RATE_LIMIT", message := "slow down", retryable := true }
        "t2").toolCalls = [] :=
  error_generation_messages demoState0 demoConv0 "hello" "t1" "t2"
    [.toolCall { id := "t1", tool_name := "w", arguments := "a", status := "pending" }]
    { code := "RATE_LIMIT", message := "slow down", retryable := true }
    rfl rfl


/-- C4: a generation that ends with a complete event appends, after the
triggering user message, one tool_call/tool_result message pair per entry
of the pending tool-call map in map (first-seen) order, then one assistant
message carrying the final response, the accumulated thinking trace and
the usage; total_tokens grows by the usage's prompt plus completion
tokens, message_count is refreshed to the list length, and the stream
session accumulators are cleared. -/
theorem complete_generation_messages (s : EngineState) (conv : Conversation)
    (content sendTime doneTime : String) (evs : List StreamEvent)
    (e : CompleteEvent) (hc : s.conversation = some conv)
    (hs : s.isStreaming = false) :
    ∃ c : Conversation,
      (runGenerationComplete s content sendTime evs e doneTime).conversation = some c ∧
      c.messages = conv.messages ++ [mkUserMsg s content sendTime] ++
        toolPairMsgs
          (evs.foldl applyStreamEvent (sendMessage s content none sendTime).1).toolCalls
          doneTime ++
        [mkAssistantMsg e
          (evs.foldl applyStreamEvent (sendMessage s content none sendTime).1)
          (some conv.metadata.model) doneTime] ∧
      c.metadata.total_tokens = conv.metadata.total_tokens + usageTokens e.usage ∧
      c.metadata.message_count = c.messages.length ∧
      (runGenerationComplete s content sendTime evs e doneTime).isStreaming = false ∧
      (runGenerationComplete s content sendTime evs e doneTime).currentResponse = "" ∧
      (runGenerationComplete s content sendTime evs e doneTime).currentThinking = "" ∧
      (runGenerationComplete s content sendTime evs e doneTime).toolCalls = [] ∧
      (runGenerationComplete s content sendTime evs e doneTime).messageDraft = "" := by
  unfold runGenerationComplete
  rw [sendMessage_run s conv content none sendTime hc hs]
  set s1 : EngineState :=
    { s with
      conversation := some
        { conv with
          metadata := sendMeta s conv.metadata (conv.messages.length + 1)
          messages := conv.messages ++ [mkUserMsg s content sendTime] }
      isStreaming := true
      currentResponse := ""
      currentThinking := ""
      toolCalls := [] } with hs1
  have hconv : (evs.foldl applyStreamEvent s1).conversation = s1.conversation :=
    foldl_stream_conversation evs s1
  unfold onComplete
  rw [hconv]
  refine ⟨_, rfl, ?_, ?_, ?_, ?_, ?_, ?_, ?_, ?_⟩ <;>
    simp [hs1, sendMeta_model, sendMeta_total_tokens]


/-- Witness for C4: a concrete generation (one token event, no tool
calls) ends with the user message and the assistant answer, usage added
to total_tokens and the session cleared. -/
theorem complete_generation_messages_witness :
    ∃ c : Conversation,
      (runGenerationComplete demoState0 "Hello" "t1"
        [.token { token := "Hi", cumulative := "Hi" }]
        { response := "Hi", usage := some { prompt_tokens := 5, completion_tokens := 1 } }
        "t2").conversation = some c ∧
      c.messages = demoConv0.messages ++ [mkUserMsg demoState0 "Hello" "t1"] ++
        toolPairMsgs
          (([StreamEvent.token { token := "Hi", cumulative := "Hi" }]).foldl
            applyStreamEvent (sendMessage demoState0 "Hello" none "t1").1).toolCalls
          "t2" ++
        [mkAssistantMsg
          { response := "Hi", usage := some { prompt_tokens := 5, completion_tokens := 1 } }
          (([StreamEvent.token { token := "Hi", cumulative := "Hi" }]).foldl
            applyStreamEvent (sendMessage demoState0 "Hello" none "t1").1)
          (some demoConv0.metadata.model) "t2"] ∧
      c.metadata.total_tokens = demoConv0.metadata.total_tokens +
        usageTokens (some { prompt_tokens := 5, completion_tokens := 1 }) ∧
      c.metadata.message_count = c.messages.length ∧
      (runGenerationComplete demoState0 "Hello" "t1"
        [.token { token := "Hi", cumulative := "Hi" }]
        { response := "Hi", usage := some { prompt_tokens := 5, completion_tokens := 1 } }
        "t2").isStreaming = false ∧
      (runGenerationComplete demoState0 "Hello" "t1"
        [.token { token := "Hi", cumulative := "Hi" }]
        { response := "Hi", usage := some { prompt_tokens := 5, completion_tokens := 1 } }
        "t2").currentResponse = "" ∧
      (runGenerationComplete demoState0 "Hello" "t1"
        [.token { token := "Hi", cumulative := "Hi" }]
        { response := "Hi", usage := some { prompt_tokens := 5, completion_tokens := 1 } }
        "t2").currentThinking = "" ∧
      (runGenerationComplete demoState0 "Hello" "t1"
        [.token { token := "Hi", cumulative := "Hi" }]
        { response := "Hi", usage := some { prompt_tokens := 5, completion_tokens := 1 } }
        "t2").toolCalls = [] ∧
      (runGenerationComplete demoState0 "Hello" "t1"
        [.token { token := "Hi", cumulative := "Hi" }]
        { response := "Hi", usage := some { prompt_tokens := 5, completion_tokens := 1 } }
        "t2").messageDraft = "" :=
  complete_generation_messages demoState0 demoConv0 "Hello" "t1" "t2"
    [.token { token := "Hi", cumulative := "Hi" }]
    { response := "Hi", usage := some { prompt_tokens := 5, completion_tokens := 1 } }
    rfl rfl

/-- C10: every entry of the pending tool-call map, including one that
never received a tool_result event, is materialized on complete as a
tool_call message plus a tool_result message with status complete whose
result payload is absent. -/
theorem pending_call_without_result (s : EngineState) (conv : Conversation)
    (e : CompleteEvent) (now : String) (tid : String) (tc : ToolCallState)
    (hc : s.conversation = some conv) (hm : (tid, tc) ∈ s.toolCalls)
    (hr : tc.result = none) :
    ∃ c : Conversation,
      (onComplete e now s).conversation = some c ∧
      mkToolCallMsg tc now ∈ c.messages ∧
      mkToolResultMsg tc now ∈ c.messages ∧
      (mkToolCallMsg tc now).role = .tool_call ∧
      (mkToolResultMsg tc now).role = .tool_result ∧
      (mkToolResultMsg tc now).status = .complete ∧
      (mkToolResultMsg tc now).tool_result = none := by
  have h1 : mkToolCallMsg tc now ∈ toolPairMsgs s.toolCalls now := by
    unfold toolPairMsgs
    exact List.mem_flatMap.mpr ⟨(tid, tc), hm, by simp⟩
  have h2 : mkToolResultMsg tc now ∈ toolPairMsgs s.toolCalls now := by
    unfold toolPairMsgs
    exact List.mem_flatMap.mpr ⟨(tid, tc), hm, by simp⟩
  unfold onComplete
  rw [hc]
  refine ⟨_, rfl, ?_, ?_, rfl, rfl, rfl, ?_⟩
  · simp [h1]
  · simp [h2]
  · simp [mkToolResultMsg, hr]

/-- Witness for C10: a concrete streaming state holding one pending call
without a result still yields the full pair on complete. -/
theorem pending_call_without_result_witness :
    ∃ c : Conversation,
      (onComplete { response := "Done" } "t3" demoStreamingWithCall).conversation = some c ∧
      mkToolCallMsg demoPendingCall "t3" ∈ c.messages ∧
      mkToolResultMsg demoPendingCall "t3" ∈ c.messages ∧
      (mkToolCallMsg demoPendingCall "t3").role = .tool_call ∧
      (mkToolResultMsg demoPendingCall "t3").role = .tool_result ∧
      (mkToolResultMsg demoPendingCall "t3").status = .complete ∧
      (mkToolResultMsg demoPendingCall "t3").tool_result = none :=
  pending_call_without_result demoStreamingWithCall demoConv1
    { response := "Done" } "t3" "t1" demoPendingCall rfl (by decide) rfl

/-- Check that the cached message_count matches the actual message list
length, across the optional conversation. -/
def countsMatch (s : EngineState) : Bool :=
  match s.conversation with
  | some c => c.metadata.message_count == c.messages.length
  | none => true

/-- C1 (code bug): sendMessage restores the message_count invariant, but
the onError handler appends the error message without refreshing
message_count, leaving the cached counter one short of the list length. -/
theorem error_handler_skips_message_count :
    countsMatch (sendMessage demoState0 "hello" none "t1").1 = true ∧
    countsMatch (onError
      { code := "RATE_LIMIT", message := "slow down", retryable := true }
      "t2" (sendMessage demoState0 "hello" none "t1").1) = false := by
  exact ⟨rfl, rfl⟩


/-! Debug event ring buffer from useSSE.ts. -/

/-- Diagnostic record appended for every successfully decoded event, from
the DebugEvent type (timestamps and parsed payloads carried as strings). -/
structure DebugEvent where
  id : String
  type : String
  data : String
  timestamp : String
  raw : String
deriving Repr, DecidableEq

/-- addDebugEvent from useSSE.ts:
`debugEvents.value = [...debugEvents.value.slice(-99), event]`; a JS
`slice(-99)` keeps the last `min 99 length` elements. -/
def addDebugEvent (buf : List DebugEvent) (e : DebugEvent) : List DebugEvent :=
  buf.drop (buf.length - 99) ++ [e]

/-- Buffer contents after recording a sequence of debug events into an
initially empty buffer. -/
def recordDebugEvents (evs : List DebugEvent) : List DebugEvent :=
  evs.foldl addDebugEvent []

/-- Recording keeps exactly the most recent 100 events. -/
theorem recordDebugEvents_eq_drop (evs : List DebugEvent) :
    recordDebugEvents evs = evs.drop (evs.length - 100) := by
  induction evs using List.reverseRecOn with
  | nil => rfl
  | append_singleton xs e ih =>
    unfold recordDebugEvents at ih ⊢
    rw [List.foldl_append, ih]
    show (xs.drop (xs.length - 100)).drop ((xs.drop (xs.length - 100)).length - 99)
        ++ [e] = (xs ++ [e]).drop ((xs ++ [e]).length - 100)
    have hl : (xs ++ [e]).length = xs.length + 1 := by simp
    rcases le_or_lt xs.length 99 with hle | hlt
    · have h1 : xs.length - 100 = 0 := by omega
      have h2 : xs.length - 99 = 0 := by omega
      have h3 : (xs ++ [e]).length - 100 = 0 := by omega
      rw [h1, List.drop_zero, h2, List.drop_zero, h3, List.drop_zero]
    · have h1 : (xs.drop (xs.length - 100)).length = 100 := by
        rw [List.length_drop]; omega
      rw [h1, List.drop_drop]
      have h2 : (xs ++ [e]).length - 100 = xs.length - 99 := by omega
      have h3 : xs.length - 99 ≤ xs.length := by omega
      rw [h2, List.drop_append_of_le_length h3]
      congr 2
      omega

/-- C7: after recording N debug events the buffer holds `min N 100`
entries, and they are exactly the most recent 100 in recording order
(oldest evicted first). -/
theorem debug_buffer_ring (evs : List DebugEvent) :
    recordDebugEvents evs = evs.drop (evs.length - 100) ∧
    (recordDebugEvents evs).length = min evs.length 100 := by
  refine ⟨recordDebugEvents_eq_drop evs, ?_⟩
  rw [recordDebugEvents_eq_drop evs, List.length_drop]
  omega


/-! Byte-stream SSE transport from useSSE.ts (connectPost).  Bytes are
naturals below 256; text is a list of characters.  `TextDecoder` with
`stream: true` is modelled as an incremental UTF-8 decoder whose state is
the pending (not yet complete) byte sequence; on valid UTF-8 input this is
exactly the WHATWG streaming decoder, and invalid input yields U+FFFD
replacement output. -/

/-- Continuation byte test (10xxxxxx). -/
def isCont (b : Nat) : Bool := decide (0x80 ≤ b ∧ b ≤ 0xBF)

/-- Valid first two bytes of a three-byte UTF-8 sequence (excluding
overlong encodings and surrogates). -/
def valid3 (b0 b1 : Nat) : Bool :=
  decide ((b0 = 0xE0 ∧ 0xA0 ≤ b1 ∧ b1 ≤ 0xBF) ∨
    (0xE1 ≤ b0 ∧ b0 ≤ 0xEC ∧ 0x80 ≤ b1 ∧ b1 ≤ 0xBF) ∨
    (b0 = 0xED ∧ 0x80 ≤ b1 ∧ b1 ≤ 0x9F) ∨
    (0xEE ≤ b0 ∧ b0 ≤ 0xEF ∧ 0x80 ≤ b1 ∧ b1 ≤ 0xBF))

/-- Valid first two bytes of a four-byte UTF-8 sequence (code points up
to U+10FFFF, excluding overlong encodings). -/
def valid4 (b0 b1 : Nat) : Bool :=
  decide ((b0 = 0xF0 ∧ 0x90 ≤ b1 ∧ b1 ≤ 0xBF) ∨
    (0xF1 ≤ b0 ∧ b0 ≤ 0xF3 ∧ 0x80 ≤ b1 ∧ b1 ≤ 0xBF) ∨
    (b0 = 0xF4 ∧ 0x80 ≤ b1 ∧ b1 ≤ 0x8F))

/-- Decode one complete UTF-8 sequence to its code point; `none` when the
byte list is not exactly one whole valid sequence. -/
def utf8DecodeOne : List Nat → Option Nat
  | [b0] => if b0 < 0x80 then some b0 else none
  | [b0, b1] =>
    if decide (0xC2 ≤ b0 ∧ b0 ≤ 0xDF) && isCont b1 then
      some ((b0 - 0xC0) * 64 + (b1 - 0x80))
    else none
  | [b0, b1, b2] =>
    if valid3 b0 b1 && isCont b2 then
      some ((b0 - 0xE0) * 4096 + (b1 - 0x80) * 64 + (b2 - 0x80))
    else none
  | [b0, b1, b2, b3] =>
    if valid4 b0 b1 && isCont b2 && isCont b3 then
      some ((b0 - 0xF0) * 262144 + (b1 - 0x80) * 4096 +
        (b2 - 0x80) * 64 + (b3 - 0x80))
    else none
  | _ => none

/-- Proper strict prefixes of valid UTF-8 sequences: byte sequences the
streaming decoder keeps pending while waiting for more input. -/
def utf8Partial : List Nat → Bool
  | [] => true
  | [b0] =>
    decide ((0xC2 ≤ b0 ∧ b0 ≤ 0xDF) ∨ (0xE0 ≤ b0 ∧ b0 ≤ 0xEF) ∨
      (0xF0 ≤ b0 ∧ b0 ≤ 0xF4))
  | [b0, b1] => valid3 b0 b1 || valid4 b0 b1
  | [b0, b1, b2] => valid4 b0 b1 && isCont b2
  | _ => false

/-- The U+FFFD replacement character emitted for undecodable input. -/
def replacementChar : Char := Char.ofNat 0xFFFD

/-- One byte step of the streaming decoder: extend the pending sequence;
emit the code point once complete, keep waiting while it is a valid
prefix, otherwise emit U+FFFD and reconsider the new byte on its own. -/
def utf8Step (st : List Char × List Nat) (b : Nat) : List Char × List Nat :=
  let bs := st.2 ++ [b]
  match utf8DecodeOne bs with
  | some cp => (st.1 ++ [Char.ofNat cp], [])
  | none =>
    if utf8Partial bs then (st.1, bs)
    else if st.2.isEmpty then (st.1 ++ [replacementChar], [])
    else
      match utf8DecodeOne [b] with
      | some cp => (st.1 ++ [replacementChar, Char.ofNat cp], [])
      | none =>
        if utf8Partial [b] then (st.1 ++ [replacementChar], [b])
        else (st.1 ++ [replacementChar, replacementChar], [])

/-- Streaming decode of one chunk starting from the pending bytes carried
over from the previous chunk: the emitted characters and the new pending
state (`decoder.decode(value, { stream: true })`). -/
def decodeChunk (pend : List Nat) (bytes : List Nat) : List Char × List Nat :=
  List.foldl utf8Step ([], pend) bytes

/-- Strip one carriage return immediately preceding a line feed, as the
`/\r?\n/` split pattern does. -/
def dropTrailingCR (l : List Char) : List Char :=
  if l.getLast? = some '\r' then l.dropLast else l

/-- One character step of the `buffer.split(/\r?\n/)` line splitter:
a line feed terminates the current line (consuming one directly preceding
carriage return), any other character extends it. -/
def lineStep (st : List (List Char) × List Char) (c : Char) :
    List (List Char) × List Char :=
  if c = '\n' then (st.1 ++ [dropTrailingCR st.2], [])
  else (st.1, st.2 ++ [c])

/-- Split a buffer into its complete lines and the trailing partial line
(the element `lines.pop()` puts back into the buffer). -/
def splitLines (cs : List Char) : List (List Char) × List Char :=
  List.foldl lineStep ([], []) cs


/-! Validity checker for `JSON.parse` (ECMA-404 grammar).  parseEventData
only needs success or failure of `JSON.parse(rawData)`, so the checker
returns the unconsumed remainder on success and `none` on failure.
Recursion is by explicit fuel; `jsonOk` supplies `length + 2`, which
exceeds the maximal possible nesting since every recursive step first
consumes at least one character. -/

/-- The double quote character. -/
def quoteChar : Char := Char.ofNat 34

/-- The opening curly bracket. -/
def lbraceChar : Char := Char.ofNat 123

/-- The closing curly bracket. -/
def rbraceChar : Char := Char.ofNat 125

/-- JSON insignificant whitespace: space, tab, line feed, carriage
return. -/
def isJsonWS (c : Char) : Bool := decide (c.toNat ∈ [32, 9, 10, 13])

/-- Skip insignificant whitespace. -/
def skipWS (s : List Char) : List Char := s.dropWhile isJsonWS

/-- Hexadecimal digit test for \u escapes. -/
def isHexChar (c : Char) : Bool :=
  decide ((48 ≤ c.toNat ∧ c.toNat ≤ 57) ∨ (97 ≤ c.toNat ∧ c.toNat ≤ 102) ∨
    (65 ≤ c.toNat ∧ c.toNat ≤ 70))

/-- Consume the remainder of a JSON string (the opening quote already
consumed): escapes, a closing quote, no raw control characters. -/
def pString : Nat → List Char → Option (List Char)
  | 0, _ => none
  | _ + 1, [] => none
  | f + 1, c :: rest =>
    if c = quoteChar then some rest
    else if c = '\\' then
      match rest with
      | [] => none
      | e :: rest2 =>
        if e = quoteChar ∨ e = '\\' ∨ e = '/' ∨ e = 'b' ∨ e = 'f' ∨ e = 'n' ∨
            e = 'r' ∨ e = 't' then
          pString f rest2
        else if e = 'u' then
          match rest2 with
          | h1 :: h2 :: h3 :: h4 :: rest3 =>
            if isHexChar h1 && isHexChar h2 && isHexChar h3 && isHexChar h4 then
              pString f rest3
            else none
          | _ => none
        else none
    else if c.toNat < 32 then none
    else pString f rest

/-- Consume one or more decimal digits. -/
def pDigits (s : List Char) : Option (List Char) :=
  match s with
  | c :: rest => if c.isDigit then some (rest.dropWhile Char.isDigit) else none
  | [] => none

/-- Consume an optional exponent part. -/
def pExp (s : List Char) : Option (List Char) :=
  match s with
  | c :: rest =>
    if c = 'e' ∨ c = 'E' then
      match rest with
      | d :: r2 => if d = '+' ∨ d = '-' then pDigits r2 else pDigits rest
      | [] => none
    else some s
  | [] => some []

/-- Consume an optional fraction part followed by an optional exponent. -/
def pFrac (s : List Char) : Option (List Char) :=
  match s with
  | c :: rest =>
    if c = '.' then
      match pDigits rest with
      | some s2 => pExp s2
      | none => none
    else pExp s
  | [] => some []

/-- Consume a JSON number: optional minus, integer part with no leading
zero, optional fraction, optional exponent. -/
def pNumber (s : List Char) : Option (List Char) :=
  let s1 := match s with
    | c :: rest => if c = '-' then rest else s
    | [] => s
  match s1 with
  | [] => none
  | c :: rest =>
    if c = '0' then pFrac rest
    else if c.isDigit then pFrac (rest.dropWhile Char.isDigit)
    else none

mutual

/-- Consume one JSON value (with leading whitespace). -/
def pVal : Nat → List Char → Option (List Char)
  | 0, _ => none
  | f + 1, s0 =>
    match skipWS s0 with
    | [] => none
    | c :: rest =>
      if c = quoteChar then pString (f + 1) rest
      else if c = lbraceChar then
        match skipWS rest with
        | d :: rest2 => if d = rbraceChar then some rest2 else pMember f (d :: rest2)
        | [] => none
      else if c = '[' then
        match skipWS rest with
        | d :: rest2 =>
          if d = ']' then some rest2
          else
            match pVal f (d :: rest2) with
            | some s2 => pArrRest f s2
            | none => none
        | [] => none
      else if c = 't' then
        if ['r', 'u', 'e'].isPrefixOf rest then some (rest.drop 3) else none
      else if c = 'f' then
        if ['a', 'l', 's', 'e'].isPrefixOf rest then some (rest.drop 4) else none
      else if c = 'n' then
        if ['u', 'l', 'l'].isPrefixOf rest then some (rest.drop 3) else none
      else pNumber (c :: rest)

/-- Consume one object member (key string, colon, value) and then the
rest of the object. -/
def pMember : Nat → List Char → Option (List Char)
  | 0, _ => none
  | f + 1, s =>
    match s with
    | c :: rest =>
      if c = quoteChar then
        match pString (f + 1) rest with
        | some s2 =>
          match skipWS s2 with
          | d :: rest2 =>
            if d = ':' then
              match pVal f rest2 with
              | some s3 => pObjRest f s3
              | none => none
            else none
          | [] => none
        | none => none
      else none
    | [] => none

/-- After one object member: either the closing bracket or a comma and a
further member. -/
def pObjRest : Nat → List Char → Option (List Char)
  | 0, _ => none
  | f + 1, s =>
    match skipWS s with
    | c :: rest =>
      if c = rbraceChar then some rest
      else if c = ',' then pMember f (skipWS rest)
      else none
    | [] => none

/-- After one array element: either the closing bracket or a comma and a
further element. -/
def pArrRest : Nat → List Char → Option (List Char)
  | 0, _ => none
  | f + 1, s =>
    match skipWS s with
    | c :: rest =>
      if c = ']' then some rest
      else if c = ',' then
        match pVal f rest with
        | some s2 => pArrRest f s2
        | none => none
      else none
    | [] => none

end

/-- Success of `JSON.parse` on a raw payload: one value consumes the
whole input up to trailing whitespace. -/
def jsonOk (s : List Char) : Bool :=
  match pVal (s.length + 2) s with
  | some rest => (skipWS rest).isEmpty
  | none => false


/-! Framed-event machine of connectPost. -/

/-- Whitespace removed by JavaScript `String.prototype.trim` (ASCII
range: tab, line feed, vertical tab, form feed, carriage return,
space). -/
def isTrimWS (c : Char) : Bool := decide (c.toNat ∈ [9, 10, 11, 12, 13, 32])

/-- JavaScript `trim`: strip leading and trailing whitespace. -/
def jsTrim (l : List Char) : List Char :=
  ((l.dropWhile isTrimWS).reverse.dropWhile isTrimWS).reverse

/-- Outcome of handleSSEEvent: whether the stream should end, and whether
the payload decoded so that the debug entry was recorded and the matching
handler invoked. -/
structure HandleResult where
  shouldEnd : Bool
  invoked : Bool
deriving Repr, DecidableEq

/-- handleSSEEvent from useSSE.ts: switch on the event type; for each
recognized type the payload is JSON-decoded and, on success only, the
debug entry is recorded and the handler invoked; `complete` and `error`
end the stream whether or not their payload decoded; unrecognized types
are ignored. -/
def handleSSEEvent (t d : List Char) : HandleResult :=
  if t = "token".toList then ⟨false, jsonOk d⟩
  else if t = "thinking".toList then ⟨false, jsonOk d⟩
  else if t = "tool_call".toList then ⟨false, jsonOk d⟩
  else if t = "tool_result".toList then ⟨false, jsonOk d⟩
  else if t = "complete".toList then ⟨true, jsonOk d⟩
  else if t = "error".toList then ⟨true, jsonOk d⟩
  else if t = "ping".toList then ⟨false, jsonOk d⟩
  else ⟨false, false⟩

/-- State of the connectPost read loop: decoder pending bytes, text
buffer holding the trailing partial line, the current event type and
payload fields, the recorded handler invocations (each `(type, rawData)`
pair for which the payload decoded and the handler plus debug recording
ran), and whether a terminal event ended the stream. -/
structure SSEState where
  pending : List Nat
  buffer : List Char
  curType : List Char
  curData : List Char
  recorded : List (List Char × List Char)
  ended : Bool
deriving Repr, DecidableEq

/-- Initial state of a fresh connectPost loop. -/
def initSSE : SSEState :=
  { pending := [], buffer := [], curType := [], curData := [],
    recorded := [], ended := false }

/-- Processing of one complete line by the connectPost loop: `event:`
lines set the current type (value trimmed), `data:` lines set the current
payload (value trimmed), an empty line with both fields non-empty
dispatches the event through handleSSEEvent and resets the fields, any
other line is ignored.  After a terminal event the source has returned,
so remaining lines leave the state untouched. -/
def processLine (s : SSEState) (line : List Char) : SSEState :=
  if s.ended then s
  else if ("event:".toList).isPrefixOf line then
    { s with curType := jsTrim (line.drop 6) }
  else if ("data:".toList).isPrefixOf line then
    { s with curData := jsTrim (line.drop 5) }
  else if line = [] ∧ s.curType ≠ [] ∧ s.curData ≠ [] then
    let r := handleSSEEvent s.curType s.curData
    { s with
      recorded :=
        if r.invoked then s.recorded ++ [(s.curType, s.curData)]
        else s.recorded
      curType := []
      curData := []
      ended := r.shouldEnd }
  else s

/-- Processing of one received byte chunk by the connectPost read loop:
decode incrementally, append to the text buffer, split off the complete
lines keeping the partial one, process each line in order.  When a
terminal event ends the stream mid-chunk the source cancels the reader
and returns, abandoning the remaining buffered text; that abandoned state
is represented canonically by clearing everything but the recorded
events. -/
def feedChunk (s : SSEState) (chunk : List Nat) : SSEState :=
  if s.ended then s
  else
    let dc := decodeChunk s.pending chunk
    let sl := splitLines (s.buffer ++ dc.1)
    let s' := List.foldl processLine
      { s with pending := dc.2, buffer := sl.2 } sl.1
    if s'.ended then { initSSE with recorded := s'.recorded, ended := true }
    else s'

/-- Feeding a whole partitioned stream, chunk by chunk, from a fresh
loop. -/
def feedChunks (chunks : List (List Nat)) : SSEState :=
  List.foldl feedChunk initSSE chunks


/-! Compositionality of the chunk parser: feeding a split stream chunk by
chunk is the same as feeding the concatenation at once. -/

/-- The emitted characters of one decoder step accumulate on the left. -/
theorem utf8Step_out (out : List Char) (p : List Nat) (b : Nat) :
    utf8Step (out, p) b =
      (out ++ (utf8Step ([], p) b).1, (utf8Step ([], p) b).2) := by
  unfold utf8Step
  dsimp only
  repeat' split
  all_goals first | rfl | simp

/-- The emitted characters of a decoder fold accumulate on the left. -/
theorem foldl_utf8Step_out (bs : List Nat) (out : List Char) (p : List Nat) :
    List.foldl utf8Step (out, p) bs =
      (out ++ (List.foldl utf8Step ([], p) bs).1,
       (List.foldl utf8Step ([], p) bs).2) := by
  induction bs generalizing out p with
  | nil => simp
  | cons x xs ih =>
    simp only [List.foldl_cons]
    rcases hu : utf8Step ([], p) x with ⟨A, B⟩
    rw [utf8Step_out out p x, hu]
    dsimp only
    rw [ih (out ++ A) B, ih A B]
    simp

/-- Streaming decode distributes over chunk concatenation. -/
theorem decodeChunk_append (p a b : List Nat) :
    decodeChunk p (a ++ b) =
      ((decodeChunk p a).1 ++ (decodeChunk (decodeChunk p a).2 b).1,
       (decodeChunk (decodeChunk p a).2 b).2) := by
  unfold decodeChunk
  rw [List.foldl_append]
  conv_lhs => rw [show List.foldl utf8Step ([], p) a =
    ((List.foldl utf8Step ([], p) a).1, (List.foldl utf8Step ([], p) a).2) from rfl]
  rw [foldl_utf8Step_out]

/-- The completed lines of one splitter step accumulate on the left. -/
theorem lineStep_out (ls : List (List Char)) (cur : List Char) (c : Char) :
    lineStep (ls, cur) c =
      (ls ++ (lineStep ([], cur) c).1, (lineStep ([], cur) c).2) := by
  unfold lineStep
  dsimp only
  split <;> simp

/-- The completed lines of a splitter fold accumulate on the left. -/
theorem foldl_lineStep_out (cs : List Char) (ls : List (List Char))
    (cur : List Char) :
    List.foldl lineStep (ls, cur) cs =
      (ls ++ (List.foldl lineStep ([], cur) cs).1,
       (List.foldl lineStep ([], cur) cs).2) := by
  induction cs generalizing ls cur with
  | nil => simp
  | cons c cs ih =>
    simp only [List.foldl_cons]
    rcases hu : lineStep ([], cur) c with ⟨A, B⟩
    rw [lineStep_out ls cur c, hu]
    dsimp only
    rw [ih (ls ++ A) B, ih A B]
    simp

/-- Line splitting distributes over buffer concatenation. -/
theorem splitLines_append (x y : List Char) :
    splitLines (x ++ y) =
      ((splitLines x).1 ++ (List.foldl lineStep ([], (splitLines x).2) y).1,
       (List.foldl lineStep ([], (splitLines x).2) y).2) := by
  unfold splitLines
  rw [List.foldl_append]
  conv_lhs => rw [show List.foldl lineStep ([], []) x =
    ((List.foldl lineStep ([], []) x).1, (List.foldl lineStep ([], []) x).2) from rfl]
  rw [foldl_lineStep_out]

/-- The trailing partial line never contains a line feed. -/
theorem foldl_lineStep_rest (cs : List Char) (ls : List (List Char))
    (cur : List Char) (h : '\n' ∉ cur) :
    '\n' ∉ (List.foldl lineStep (ls, cur) cs).2 := by
  induction cs generalizing ls cur with
  | nil => simpa using h
  | cons c cs ih =>
    simp only [List.foldl_cons]
    by_cases hc : c = '\n'
    · have hstep : lineStep (ls, cur) c = (ls ++ [dropTrailingCR cur], []) := by
        unfold lineStep
        dsimp only
        rw [if_pos hc]
      rw [hstep]
      exact ih _ _ (List.not_mem_nil _)
    · have hstep : lineStep (ls, cur) c = (ls, cur ++ [c]) := by
        unfold lineStep
        dsimp only
        rw [if_neg hc]
      rw [hstep]
      refine ih _ _ ?_
      intro hmem
      rcases List.mem_append.mp hmem with h1 | h1
      · exact h h1
      · exact hc (List.mem_singleton.mp h1).symm

/-- Folding a newline-free suffix only extends the partial line. -/
theorem foldl_lineStep_no_newline (cs : List Char) (h : '\n' ∉ cs)
    (ls : List (List Char)) (cur : List Char) :
    List.foldl lineStep (ls, cur) cs = (ls, cur ++ cs) := by
  induction cs generalizing ls cur with
  | nil => simp
  | cons c cs ih =>
    have hc : c ≠ '\n' := fun hh => h (hh ▸ List.mem_cons_self c cs)
    have hcs : '\n' ∉ cs := fun hh => h (List.mem_cons_of_mem c hh)
    simp only [List.foldl_cons]
    have hstep : lineStep (ls, cur) c = (ls, cur ++ [c]) := by
      unfold lineStep
      dsimp only
      rw [if_neg (fun hh => hc hh)]
    rw [hstep, ih hcs]
    simp

/-- Splitting the leftover partial line followed by new text restarts the
fold from that partial line. -/
theorem splitLines_rest_append (x y : List Char) :
    splitLines ((splitLines x).2 ++ y) =
      List.foldl lineStep ([], (splitLines x).2) y := by
  have hnl : '\n' ∉ (splitLines x).2 := by
    unfold splitLines
    exact foldl_lineStep_rest x [] [] (List.not_mem_nil _)
  show List.foldl lineStep ([], []) ((splitLines x).2 ++ y) = _
  rw [List.foldl_append]
  rw [foldl_lineStep_no_newline _ hnl [] []]
  rfl


/-- Line processing never touches the decoder pending bytes. -/
theorem processLine_pending (s : SSEState) (l : List Char) :
    (processLine s l).pending = s.pending := by
  unfold processLine
  repeat' split
  all_goals rfl

/-- Line processing never touches the text buffer. -/
theorem processLine_buffer (s : SSEState) (l : List Char) :
    (processLine s l).buffer = s.buffer := by
  unfold processLine
  repeat' split
  all_goals rfl

/-- Line processing reads only the machine fields, so overriding pending
bytes and buffer commutes with it. -/
theorem processLine_shift (s : SSEState) (p : List Nat) (b : List Char)
    (l : List Char) :
    processLine { s with pending := p, buffer := b } l =
      { processLine s l with pending := p, buffer := b } := by
  unfold processLine
  dsimp only
  repeat' split
  all_goals rfl

/-- Folding lines commutes with overriding pending bytes and buffer. -/
theorem foldl_processLine_shift (ls : List (List Char)) (s : SSEState)
    (p : List Nat) (b : List Char) :
    List.foldl processLine { s with pending := p, buffer := b } ls =
      { List.foldl processLine s ls with pending := p, buffer := b } := by
  induction ls generalizing s with
  | nil => rfl
  | cons l ls ih =>
    simp only [List.foldl_cons]
    rw [processLine_shift]
    exact ih (processLine s l)

/-- After the stream has ended a line leaves the state untouched. -/
theorem processLine_ended (s : SSEState) (l : List Char)
    (h : s.ended = true) : processLine s l = s := by
  unfold processLine
  rw [if_pos h]

/-- After the stream has ended any remaining lines leave the state
untouched. -/
theorem foldl_processLine_ended (ls : List (List Char)) (s : SSEState)
    (h : s.ended = true) : List.foldl processLine s ls = s := by
  induction ls with
  | nil => rfl
  | cons l ls ih =>
    simp only [List.foldl_cons]
    rw [processLine_ended s l h]
    exact ih

/-- One chunk-composition step: feeding two chunks in sequence equals
feeding their concatenation. -/
theorem feedChunk_append (s : SSEState) (a b : List Nat) :
    feedChunk (feedChunk s a) b = feedChunk s (a ++ b) := by
  by_cases hs : s.ended = true
  · have h1 : feedChunk s a = s := by
      unfold feedChunk
      rw [if_pos hs]
    have h2 : feedChunk s b = s := by
      unfold feedChunk
      rw [if_pos hs]
    have h3 : feedChunk s (a ++ b) = s := by
      unfold feedChunk
      rw [if_pos hs]
    rw [h1, h2, h3]
  · rw [Bool.not_eq_true] at hs
    generalize hdA : decodeChunk s.pending a = dA
    generalize hsA : splitLines (s.buffer ++ dA.1) = sA
    generalize hdB : decodeChunk dA.2 b = dB
    generalize hsB : List.foldl lineStep ([], sA.2) dB.1 = sB
    generalize hm0 : List.foldl processLine s sA.1 = m0
    generalize hn0 : List.foldl processLine m0 sB.1 = n0
    have f1 : feedChunk s a =
        (if m0.ended = true
         then { initSSE with recorded := m0.recorded, ended := true }
         else { m0 with pending := dA.2, buffer := sA.2 }) := by
      unfold feedChunk
      rw [if_neg (by rw [hs]; simp)]
      dsimp only
      rw [hdA, hsA, foldl_processLine_shift sA.1 s dA.2 sA.2, hm0]
    have f4 : feedChunk s (a ++ b) =
        (if n0.ended = true
         then { initSSE with recorded := n0.recorded, ended := true }
         else { n0 with pending := dB.2, buffer := sB.2 }) := by
      unfold feedChunk
      rw [if_neg (by rw [hs]; simp)]
      dsimp only
      rw [decodeChunk_append, hdA, hdB]
      dsimp only
      rw [← List.append_assoc, splitLines_append, hsA, hsB]
      dsimp only
      rw [List.foldl_append, foldl_processLine_shift sA.1 s dB.2 sB.2, hm0,
        foldl_processLine_shift sB.1 m0 dB.2 sB.2, hn0]
    by_cases hm : m0.ended = true
    · have hn : n0 = m0 := by
        rw [← hn0]
        exact foldl_processLine_ended sB.1 m0 hm
      rw [f1, if_pos hm, f4, hn, if_pos hm]
      unfold feedChunk
      rw [if_pos rfl]
    · rw [Bool.not_eq_true] at hm
      rw [f1, if_neg (by rw [hm]; simp), f4]
      have hrest : splitLines (sA.2 ++ dB.1) = sB := by
        rw [← hsA, splitLines_rest_append, hsA, hsB]
      unfold feedChunk
      rw [if_neg (by dsimp only; rw [hm]; simp)]
      dsimp only
      rw [hdB, hrest]
      rw [foldl_processLine_shift sB.1 m0 dB.2 sB.2, hn0]

/-- Iterated chunk composition: continuing a partitioned feed equals
feeding one concatenated chunk. -/
theorem foldl_feedChunk_append (chunks : List (List Nat)) (s : SSEState)
    (a : List Nat) :
    List.foldl feedChunk (feedChunk s a) chunks =
      feedChunk s (a ++ chunks.flatten) := by
  induction chunks generalizing a with
  | nil => simp
  | cons c cs ih =>
    simp only [List.foldl_cons, List.flatten_cons]
    rw [feedChunk_append s a c, ih (a ++ c), List.append_assoc]

/-- Feeding a partitioned stream equals feeding its concatenation as one
chunk. -/
theorem feedChunks_flatten (chunks : List (List Nat)) :
    feedChunks chunks = feedChunk initSSE chunks.flatten := by
  cases chunks with
  | nil => rfl
  | cons c cs =>
    show List.foldl feedChunk (feedChunk initSSE c) cs = _
    rw [foldl_feedChunk_append cs initSSE c, List.flatten_cons]


/-- C3: feeding a valid multi-event byte stream split at arbitrary byte
offsets (including splits inside a multi-byte UTF-8 code point and
between a carriage return and a line feed) to the POST-mode parser
produces exactly the same sequence of (eventType, payload) handler
invocations, in the same order, as feeding the whole stream as one
chunk.  Proved for every byte stream, valid or not. -/
theorem chunked_parse_matches_whole (chunks : List (List Nat)) :
    (feedChunks chunks).recorded = (feedChunk initSSE chunks.flatten).recorded := by
  rw [feedChunks_flatten]

/-- The stream is ended exactly by the complete and error event types,
whether or not the payload decoded. -/
theorem handleSSEEvent_shouldEnd (t d : List Char) :
    (handleSSEEvent t d).shouldEnd =
      decide (t = "complete".toList ∨ t = "error".toList) := by
  unfold handleSSEEvent
  repeat' split
  all_goals simp_all

/-- A payload that fails to decode never records a debug entry or handler
invocation. -/
theorem handleSSEEvent_invoked (t d : List Char) (h : jsonOk d = false) :
    (handleSSEEvent t d).invoked = false := by
  unfold handleSSEEvent
  repeat' split
  all_goals simp [h]

/-- C2 (amended): dispatching a framed event whose payload fails to
decode as JSON drops that single event: no handler invocation and no
debug entry is recorded, and the current event fields are reset.  For the
non-terminal event types the stream is not terminated; a malformed
complete or error event is equally dropped but still terminates the
stream. -/
theorem malformed_event_dropped (s : SSEState) (h : jsonOk s.curData = false)
    (he : s.ended = false) (ht : s.curType ≠ []) (hd : s.curData ≠ []) :
    processLine s [] =
      { s with
        curType := []
        curData := []
        ended := decide (s.curType = "complete".toList ∨
          s.curType = "error".toList) } := by
  unfold processLine
  rw [if_neg (by rw [he]; simp)]
  rw [if_neg (by decide)]
  rw [if_neg (by decide)]
  rw [if_pos ⟨rfl, ht, hd⟩]
  dsimp only
  rw [handleSSEEvent_invoked s.curType s.curData h]
  rw [handleSSEEvent_shouldEnd]
  simp

/-- Concrete dispatch state holding a malformed token payload. -/
def c2DemoState : SSEState :=
  { pending := []
    buffer := []
    curType := "token".toList
    curData := "nope".toList
    recorded := []
    ended := false }

/-- Witness for C2's amended theorem: a malformed token event is dropped
without a recorded invocation and without ending the stream. -/
theorem malformed_event_dropped_witness :
    processLine c2DemoState [] =
      { c2DemoState with
        curType := []
        curData := []
        ended := decide (c2DemoState.curType = "complete".toList ∨
          c2DemoState.curType = "error".toList) } :=
  malformed_event_dropped c2DemoState rfl rfl (by decide) (by decide)

/-- Byte stream carrying a complete event with an undecodable payload
followed by a well-formed token event. -/
def c2Bytes : List Nat :=
  ("event: complete\ndata: nope\n\nevent: token\ndata: 5\n\n".toList.map
    Char.toNat)

set_option maxRecDepth 8192 in
/-- Counterexample for C2 as stated: a malformed complete event still
terminates the stream, so the following well-formed token event is never
parsed and nothing is ever recorded — parsing does not continue with the
next event. -/
theorem malformed_complete_still_terminates :
    (feedChunk initSSE c2Bytes).ended = true ∧
    (feedChunk initSSE c2Bytes).recorded = [] := by
  constructor <;> decide

/-- C8 (code bug): the outbound streaming request of sendMessage carries
exactly the two hard-coded headers Content-Type: application/json and
Accept: text/event-stream; the BYOK headers obtained from the key store
are passed to connectPost as a fourth argument its (url, body, handlers)
signature does not declare, so they never reach the request. -/
theorem byok_headers_dropped :
    ∃ req : FetchRequest,
      (sendMessage demoState0 "hello" none "t1").2 = some req ∧
      req.headers = [("Content-Type", "application/json"),
                     ("Accept", "text/event-stream")] ∧
      demoState0.byokHeaders =
        [("X-LLM-Key", "k"), ("X-LLM-Provider", "openrouter")] ∧
      ("X-LLM-Key", "k") ∉ req.headers := by
  refine ⟨connectPostRequest (API_URL ++ "/chat/stream")
    (sendBody demoState0 demoConv0 "hello" none "t1"), rfl, rfl, rfl, by decide⟩

end ForgeUI
